import Mathlib

set_option maxHeartbeats 1000000

/-!
Verification of the gtfstidy transformation pipeline against its
natural-language specification.  The Go source is shallowly embedded:
calendar dates are absolute day numbers (`Int`, day 0 a Sunday, matching
Go's `time.Weekday` numbering under day arithmetic), Go maps become
functions or association lists, Go pointers become string identifiers
(entity tables key distinct objects by distinct ids), and fixed-width
Go integers appear as `Int`/`Nat` (no operation here can overflow a
64-bit value on the quantities involved).
-/

/-! ## Service calendars (serviceminimizer.go, serviceduplicateremover.go) -/

/-- Weekday index of an absolute day number: day 0 is a Sunday, so this is
Go `time.Weekday` (0 = Sunday .. 6 = Saturday). -/
def weekday (d : Int) : Nat := (d % 7).toNat
/-- Embedding of `gtfs.Service`: weekday bitmap indexed by Go weekday
(only indices 0..6 are ever queried), inclusive start/end dates, and the
`calendar_dates.txt` exception map (1 = service added, 2 = removed). -/
structure Service where
  daymap : Nat → Bool
  start_date : Int
  end_date : Int
  exceptions : Int → Option Int
/-- Modelled from the spec: `gtfsparser`'s `Service.IsActiveOn` (the library
is not part of this repository).  Spec §3: `active(S, D) = (S.start ≤ D ≤
S.end ∧ S.weekday_bitmap[weekday(D)]) XOR added_exception(S,D)` where the
exception overrides the range: a type-1 exception forces activity, a type-2
exception forces inactivity, otherwise the calendar range and bitmap decide. -/
def Service.isActiveOn (s : Service) (d : Int) : Bool :=
  match s.exceptions d with
  | some t => t == 1
  | none => s.daymap (weekday d) && decide (s.start_date ≤ d) && decide (d ≤ s.end_date)
/-- Embedding of `hasBit` (serviceminimizer.go line 33). -/
def hasBit (n : Nat) (pos : Nat) : Bool := decide (n &&& (1 <<< pos) > 0)
/-- Loop body of the first cropping loop of `ServiceMinimizer.updateService`
(serviceminimizer.go lines 292-294), with the loop's iteration bound made
explicit as a `Nat` so the function computes by structural recursion: the
loop runs while the begin date is strictly before the end date (exactly
`e - b` more steps are possible) and the service is not active on it. -/
def cropBeginN (s : Service) : Nat → Int → Int
  | 0, b => b
  | n + 1, b => if s.isActiveOn b = false then cropBeginN s n (b + 1) else b
/-- Embedding of the first cropping loop of `ServiceMinimizer.updateService`:
advance the begin date while it is strictly before the end date and the
service is not active on it. -/
def cropBegin (s : Service) (b e : Int) : Int := cropBeginN s (e - b).toNat b
/-- Loop body of the second cropping loop of `ServiceMinimizer.updateService`
(serviceminimizer.go lines 297-299), iteration bound explicit. -/
def cropEndN (s : Service) : Nat → Int → Int
  | 0, e => e
  | n + 1, e => if s.isActiveOn e = false then cropEndN s n (e - 1) else e
/-- Embedding of the second cropping loop of `ServiceMinimizer.updateService`:
move the end date backwards while it is strictly after the begin date and
the service is not active on it. -/
def cropEnd (s : Service) (b e : Int) : Int := cropEndN s (e - b).toNat e
/-- Tail of `ServiceMinimizer.updateService` (serviceminimizer.go lines
301-342): given the cropped window `[nb, ne]` and the final weekday map
`nm`, rebuild the service.  The Go loop over `[start, end_]` fills a fresh
exception map, visiting each date exactly once; the map it builds is
exactly the function below.  Reads of the old service all happen before
the mutation in Go, so this is a pure map from old to new service. -/
def updateServiceWrite (s : Service) (nm : Nat → Bool) (nb ne start end_ : Int) : Service :=
  { daymap := nm
    start_date := nb
    end_date := ne
    exceptions := fun d =>
      if start ≤ d ∧ d ≤ end_ then
        if d < nb ∨ ne < d then
          if s.isActiveOn d then some 1 else none
        else
          if nm (weekday d) then
            if s.isActiveOn d then none else some 2
          else
            if s.isActiveOn d then some 1 else none
      else none }
/-- Embedding of `ServiceMinimizer.updateService` (serviceminimizer.go lines
278-343): build the candidate weekday map from the bits of `bestMap`, crop
the window `[start+bestA, start+bestB]` to active days, zero the map when
the window collapses to a single day, and rewrite range and exceptions. -/
def updateService (s : Service) (bestMap bestA bestB : Nat) (start end_ : Int) : Service :=
  let nb0 : Int := start + bestA
  let ne0 : Int := start + bestB
  let nb : Int := cropBegin s nb0 ne0
  let ne : Int := cropEnd s nb ne0
  let nm : Nat → Bool := if nb = ne then fun _ => false else fun i => hasBit bestMap i
  updateServiceWrite s nm nb ne start end_
/-- Loop of `ServiceMinimizer.getActiveOnMap` (serviceminimizer.go lines
269-276) with the iteration count explicit: record the activity of each
date of an inclusive range in order. -/
def getActiveOnMapN (s : Service) : Nat → Int → List Bool
  | 0, _ => []
  | n + 1, a => s.isActiveOn a :: getActiveOnMapN s n (a + 1)
/-- Embedding of `ServiceMinimizer.getActiveOnMap`: the activity bitmap of
the inclusive date range `[a, b]`. -/
def getActiveOnMap (s : Service) (a b : Int) : List Bool :=
  getActiveOnMapN s (b + 1 - a).toNat a
/-- Embedding of `ServiceCompressed` (serviceduplicateremover.go lines
23-28).  The `hash` field is omitted: it only buckets the candidate search
and is never read by `servEqual`. -/
structure ServiceCompressed where
  start : Int
  end_ : Int
  activeMap : List Bool
/-- Embedding of the compressed form built by
`ServiceDuplicateRemover.getActiveMaps` (serviceduplicateremover.go lines
122-130): first and last active dates (obtained from the gtfsparser library)
and the activity bitmap in between. -/
def compressService (s : Service) (first last : Int) : ServiceCompressed :=
  { start := first, end_ := last, activeMap := getActiveOnMap s first last }
/-- Embedding of `ServiceDuplicateRemover.servEqual` (serviceduplicateremover.go
lines 205-220): equal endpoints and pointwise equal activity bitmaps. -/
def servEqual (a b : ServiceCompressed) : Bool :=
  if a.start ≠ b.start ∨ a.end_ ≠ b.end_ then false
  else if a.activeMap.length ≠ b.activeMap.length then false
  else (List.range a.activeMap.length).all fun i =>
    a.activeMap.getD i false == b.activeMap.getD i false
/-- A service active exactly on days 3, 4 and 5 (pure calendar row). -/
def svcRange : Service :=
  { daymap := fun _ => true
    start_date := 3
    end_date := 5
    exceptions := fun _ => none }
/-- A service active exactly on day 2, written as a single added exception. -/
def svcExc : Service :=
  { daymap := fun _ => false
    start_date := 0
    end_date := 0
    exceptions := fun d => if d = 2 then some 1 else none }
/-- A service active exactly on day 2, written as a one-day calendar row on
the weekday of day 2. -/
def svcCal : Service :=
  { daymap := fun i => i == 2
    start_date := 2
    end_date := 2
    exceptions := fun _ => none }

/-! ## Pipeline construction (gtfstidy.go lines 533-677) -/

/-- The processors appended to `minzers` in `main` (gtfstidy.go lines
533-672), as tags.  The configuration payloads handed to each processor
(thresholds, fuzzy switches, headway bounds, ID options) do not influence
the sequencing and are not modelled; `-i` and `-d` both append the ID
minimizer. -/
inductive Proc
  | tooFastTripRemover
  | completeTripsGeoFilter
  | orphanRemover
  | agencyDuplicateRemover
  | stopParentAverager
  | stopDuplicateRemover
  | stopReclusterer
  | platformCodeDropper
  | shapeRemeasurer
  | shapeMinimizer
  | stopTimeRemeasurer
  | shapeSnapper
  | shapeDuplicateRemover
  | routeDuplicateRemover
  | serviceDuplicateRemover
  | adjacentStopTimeGrouper
  | serviceMinimizer
  | tripDuplicateRemover
  | serviceNonOverlapper
  | frequencyMinimizer
  | serviceCalDatesRem
  | stopParentEnforcer
  | idMinimizer
deriving DecidableEq

/-- The command-line switches of `main` consulted while building `minzers`
(gtfstidy.go lines 154-196).  Flag parsing is external (pflag); this record
is the post-parse flag state, which does not depend on the order in which
the flags were given on the command line.  The composite shorthands
(`--compress`, `--Compress`, `--merge`, `--Merge`, lines 285-320) only set
these switches and are therefore covered by quantifying over all records. -/
structure Flags where
  dropTooFast : Bool
  polygonFilterCompleteTrips : Bool
  useOrphanDeleter : Bool
  useRedAgencyMinimizer : Bool
  useStopAverager : Bool
  useRedStopMinimizer : Bool
  useStopReclusterer : Bool
  dropPlatformCodesForParentless : Bool
  useShapeRemeasurer : Bool
  useShapeMinimizer : Bool
  useRedShapeRemover : Bool
  useStopTimeRemeasurer : Bool
  useShapeSnapper : Bool
  useRedRouteMinimizer : Bool
  useRedServiceMinimizer : Bool
  groupAdjEquStops : Bool
  useRedTripMinimizer : Bool
  useServiceMinimizer : Bool
  nonOverlappingServices : Bool
  useFrequencyMinimizer : Bool
  useCalDatesRemover : Bool
  ensureParents : Bool
  useIDMinimizerNum : Bool
  useIDMinimizerChar : Bool

/-- Conditional append groups 1-8 of the `minzers` list construction of
`main` (gtfstidy.go lines 535-582), one entry per `if` block, in source
order (the list is split in three definitions only to keep elaboration
cheap; `main` concatenates all groups sequentially). -/
def pipelineSegmentsA (f : Flags) : List (List Proc) :=
  [ (if f.dropTooFast then [Proc.tooFastTripRemover] else []),
    (if f.polygonFilterCompleteTrips then [Proc.completeTripsGeoFilter] else []),
    (if f.useOrphanDeleter then [Proc.orphanRemover] else []),
    (if f.useRedAgencyMinimizer then [Proc.agencyDuplicateRemover] else []),
    (if f.useStopAverager then [Proc.stopParentAverager] else []),
    (if f.useRedStopMinimizer then [Proc.stopDuplicateRemover] else []),
    (if f.useStopReclusterer then [Proc.stopReclusterer] else []),
    (if f.dropPlatformCodesForParentless then
        [Proc.platformCodeDropper, Proc.stopDuplicateRemover] else []) ]

/-- Conditional append groups 9-16 of the `minzers` list construction
(gtfstidy.go lines 584-626). -/
def pipelineSegmentsB (f : Flags) : List (List Proc) :=
  [ (if f.useShapeRemeasurer || f.useShapeMinimizer || f.useRedShapeRemover
        || f.useStopTimeRemeasurer then [Proc.shapeRemeasurer] else []),
    (if f.useShapeMinimizer then [Proc.shapeMinimizer] else []),
    (if f.useStopTimeRemeasurer then [Proc.stopTimeRemeasurer] else []),
    (if f.useShapeSnapper then
        [Proc.shapeSnapper] ++
        (if f.useRedStopMinimizer then [Proc.stopDuplicateRemover] else []) ++
        (if f.useOrphanDeleter then [Proc.orphanRemover] else [])
      else []),
    (if f.useRedShapeRemover then [Proc.shapeDuplicateRemover] else []),
    (if f.useRedRouteMinimizer then [Proc.routeDuplicateRemover] else []),
    (if f.useRedServiceMinimizer then [Proc.serviceDuplicateRemover] else []),
    (if f.groupAdjEquStops then [Proc.adjacentStopTimeGrouper] else []) ]

/-- Conditional append groups 17-23 of the `minzers` list construction
(gtfstidy.go lines 628-672). -/
def pipelineSegmentsC (f : Flags) : List (List Proc) :=
  [ (if f.useRedTripMinimizer then
        (if f.useServiceMinimizer then [Proc.serviceMinimizer] else []) ++
        [Proc.tripDuplicateRemover] ++
        (if f.useOrphanDeleter then [Proc.orphanRemover] else []) ++
        (if f.useRedServiceMinimizer then [Proc.serviceDuplicateRemover] else [])
      else []),
    (if f.nonOverlappingServices then [Proc.serviceNonOverlapper] else []),
    (if f.useServiceMinimizer then [Proc.serviceMinimizer] else []),
    (if f.useFrequencyMinimizer then [Proc.frequencyMinimizer] else []),
    (if f.useCalDatesRemover then [Proc.serviceCalDatesRem] else []),
    (if f.ensureParents then [Proc.stopParentEnforcer] else []),
    (if f.useIDMinimizerNum then [Proc.idMinimizer]
     else if f.useIDMinimizerChar then [Proc.idMinimizer] else []) ]

/-- All conditional append groups of `main`, in source order. -/
def pipelineSegments (f : Flags) : List (List Proc) :=
  pipelineSegmentsA f ++ pipelineSegmentsB f ++ pipelineSegmentsC f

/-- Embedding of the `minzers` list of `main` (gtfstidy.go lines 533-672):
the concatenation of the conditional append groups. -/
def buildPipeline (f : Flags) : List Proc := (pipelineSegments f).flatten

/-- Per-segment upper bounds for groups 1-8: segment `i` of any flag record
is a subsequence of entry `i`. -/
def pipelineMasterSegmentsA : List (List Proc) :=
  [ [Proc.tooFastTripRemover],
    [Proc.completeTripsGeoFilter],
    [Proc.orphanRemover],
    [Proc.agencyDuplicateRemover],
    [Proc.stopParentAverager],
    [Proc.stopDuplicateRemover],
    [Proc.stopReclusterer],
    [Proc.platformCodeDropper, Proc.stopDuplicateRemover] ]

/-- Per-segment upper bounds for groups 9-16. -/
def pipelineMasterSegmentsB : List (List Proc) :=
  [ [Proc.shapeRemeasurer],
    [Proc.shapeMinimizer],
    [Proc.stopTimeRemeasurer],
    [Proc.shapeSnapper, Proc.stopDuplicateRemover, Proc.orphanRemover],
    [Proc.shapeDuplicateRemover],
    [Proc.routeDuplicateRemover],
    [Proc.serviceDuplicateRemover],
    [Proc.adjacentStopTimeGrouper] ]

/-- Per-segment upper bounds for groups 17-23. -/
def pipelineMasterSegmentsC : List (List Proc) :=
  [ [Proc.serviceMinimizer, Proc.tripDuplicateRemover, Proc.orphanRemover,
     Proc.serviceDuplicateRemover],
    [Proc.serviceNonOverlapper],
    [Proc.serviceMinimizer],
    [Proc.frequencyMinimizer],
    [Proc.serviceCalDatesRem],
    [Proc.stopParentEnforcer],
    [Proc.idMinimizer] ]

/-- All per-segment upper bounds; their flattening is `pipelineMaster`. -/
def pipelineMasterSegments : List (List Proc) :=
  pipelineMasterSegmentsA ++ pipelineMasterSegmentsB ++ pipelineMasterSegmentsC

/-- The fixed master sequence of the pipeline: every `buildPipeline f` is a
subsequence of this list, whatever the flags.  Repeated entries come from
the conditional re-runs in `main` (a second stop dedupe after the platform
code dropper and after the shape snapper, a second orphan sweep and a second
service dedupe around the trip dedupe, a service minimizer run before the
trip dedupe in addition to the main one). -/
def pipelineMaster : List Proc :=
  [Proc.tooFastTripRemover, Proc.completeTripsGeoFilter, Proc.orphanRemover,
   Proc.agencyDuplicateRemover, Proc.stopParentAverager, Proc.stopDuplicateRemover,
   Proc.stopReclusterer, Proc.platformCodeDropper, Proc.stopDuplicateRemover,
   Proc.shapeRemeasurer, Proc.shapeMinimizer, Proc.stopTimeRemeasurer,
   Proc.shapeSnapper, Proc.stopDuplicateRemover, Proc.orphanRemover,
   Proc.shapeDuplicateRemover, Proc.routeDuplicateRemover, Proc.serviceDuplicateRemover,
   Proc.adjacentStopTimeGrouper, Proc.serviceMinimizer, Proc.tripDuplicateRemover,
   Proc.orphanRemover, Proc.serviceDuplicateRemover, Proc.serviceNonOverlapper,
   Proc.serviceMinimizer, Proc.frequencyMinimizer, Proc.serviceCalDatesRem,
   Proc.stopParentEnforcer, Proc.idMinimizer]

/-- All switches off. -/
def flagsOff : Flags :=
  { dropTooFast := false, polygonFilterCompleteTrips := false, useOrphanDeleter := false,
    useRedAgencyMinimizer := false, useStopAverager := false, useRedStopMinimizer := false,
    useStopReclusterer := false, dropPlatformCodesForParentless := false,
    useShapeRemeasurer := false, useShapeMinimizer := false, useRedShapeRemover := false,
    useStopTimeRemeasurer := false, useShapeSnapper := false, useRedRouteMinimizer := false,
    useRedServiceMinimizer := false, groupAdjEquStops := false, useRedTripMinimizer := false,
    useServiceMinimizer := false, nonOverlappingServices := false,
    useFrequencyMinimizer := false, useCalDatesRemover := false, ensureParents := false,
    useIDMinimizerNum := false, useIDMinimizerChar := false }

/-- The flag combination of the claim: stop dedupe (`-P`), service
minimizer (`-c`) and trip dedupe (`-I`) enabled, everything else off. -/
def flagsPcI : Flags :=
  { flagsOff with
    useRedStopMinimizer := true
    useServiceMinimizer := true
    useRedTripMinimizer := true }


/-! ## Feed model and orphan sweep (orphanminimizer.go lines 280-457) -/

/-- Embedding of `gtfs.StopTime` restricted to the fields the claims about
the orphan sweep consult (the stop reference plus the pickup and drop-off
types; GTFS type 1 means no pickup / no drop-off).  Go pointers between
feed entities are embedded as string ids: each table keys distinct objects
by distinct ids, so pointer equality is id equality. -/
structure StopTimeRef where
  stop : String
  pickup_type : Int
  drop_off_type : Int
deriving DecidableEq

/-- Embedding of `gtfs.Frequency`. -/
structure Frequency where
  start_time : Int
  end_time : Int
  headway_secs : Int
  exact_times : Bool
deriving DecidableEq

/-- Embedding of `gtfs.Trip` restricted to the reference structure. -/
structure Trip where
  id : String
  stopTimes : List StopTimeRef
  frequencies : List Frequency
  shape : Option String
  service : String
  route : String
deriving DecidableEq

/-- Embedding of `gtfs.Stop` restricted to the reference structure. -/
structure Stop where
  id : String
  location_type : Int
  parent_station : Option String
deriving DecidableEq

/-- Embedding of `gtfs.Transfer` endpoints. -/
structure Transfer where
  from_stop : String
  to_stop : String
deriving DecidableEq

/-- Embedding of `gtfs.Pathway` endpoints (checked for nil in the sweep). -/
structure Pathway where
  from_stop : Option String
  to_stop : Option String
deriving DecidableEq

/-- Embedding of a `gtfs.FareAttributeRule`. -/
structure FareRule where
  route : Option String
  origin_id : String
  destination_id : String
  contains_id : String
deriving DecidableEq

/-- Embedding of a `gtfs.FareAttribute` with its rule list. -/
structure FareAttribute where
  id : String
  rules : List FareRule
  agency : Option String
deriving DecidableEq

/-- Embedding of `gtfs.Route` restricted to the reference structure. -/
structure Route where
  id : String
  agency : Option String
deriving DecidableEq

/-- Embedding of `gtfsparser.Feed` restricted to the tables the orphan
sweep and the route duplicate remover touch; shapes, services and agencies
carry only their ids here. -/
structure Feed where
  trips : List Trip
  stops : List Stop
  transfers : List Transfer
  pathways : List Pathway
  shapes : List String
  services : List String
  routes : List Route
  agencies : List String
  fareAttributes : List FareAttribute

/-- The reference set of `OrphanRemover.removeStopOrphans` (orphanminimizer.go
lines 337-362), as a membership test: a stop is referenced when a stop time,
a transfer endpoint, a live stop's parent pointer or a pathway endpoint
names it. -/
def stopReferenced (f : Feed) (sid : String) : Bool :=
  f.trips.any (fun t => t.stopTimes.any (fun st => st.stop == sid)) ||
  f.transfers.any (fun t => t.from_stop == sid || t.to_stop == sid) ||
  f.stops.any (fun s => s.parent_station == some sid) ||
  f.pathways.any (fun p => p.from_stop == some sid || p.to_stop == some sid)

/-- Embedding of `OrphanRemover.removeStopOrphans` (orphanminimizer.go lines
336-370): the reference set is computed on the incoming feed, then every
unreferenced stop is deleted. -/
def removeStopOrphans (f : Feed) : Feed :=
  { f with stops := f.stops.filter fun s => stopReferenced f s.id }

/-- Embedding of `OrphanRemover.removeTripOrphans` (orphanminimizer.go lines
405-411): delete trips with no stop times and no frequencies. -/
def removeTripOrphans (f : Feed) : Feed :=
  { f with trips := f.trips.filter fun t => !(t.stopTimes.isEmpty && t.frequencies.isEmpty) }

/-- Embedding of `OrphanRemover.removeShapeOrphans` (orphanminimizer.go
lines 373-387). -/
def removeShapeOrphans (f : Feed) : Feed :=
  { f with shapes := f.shapes.filter fun sh => f.trips.any fun t => t.shape == some sh }

/-- Embedding of `OrphanRemover.removeServiceOrphans` (orphanminimizer.go
lines 390-402). -/
def removeServiceOrphans (f : Feed) : Feed :=
  { f with services := f.services.filter fun sv => f.trips.any fun t => t.service == sv }

/-- Embedding of `OrphanRemover.removeRouteOrphans` (orphanminimizer.go
lines 414-434). -/
def removeRouteOrphans (f : Feed) : Feed :=
  { f with routes := f.routes.filter fun r =>
      (f.trips.any fun t => t.route == r.id) ||
      (f.fareAttributes.any fun fa => fa.rules.any fun fr => fr.route == some r.id) }

/-- Embedding of `OrphanRemover.removeAgencyOrphans` (orphanminimizer.go
lines 437-457). -/
def removeAgencyOrphans (f : Feed) : Feed :=
  { f with agencies := f.agencies.filter fun a =>
      (f.routes.any fun r => r.agency == some a) ||
      (f.fareAttributes.any fun fa => fa.agency == some a) }

/-- Embedding of `OrphanRemover.Run` (orphanminimizer.go lines 300-333):
trip orphans first, then the stop sweep exactly twice (the comment in the
source says: to catch newly-orphaned parents), then shapes, services,
routes and agencies. -/
def orphanRun (f : Feed) : Feed :=
  removeAgencyOrphans (removeRouteOrphans (removeServiceOrphans (removeShapeOrphans
    (removeStopOrphans (removeStopOrphans (removeTripOrphans f))))))

/-- The trip of the C3 counterexample: its only stop time allows neither
pickup nor drop-off (both types 1). -/
def tripC3 : Trip :=
  { id := "t", stopTimes := [{ stop := "s", pickup_type := 1, drop_off_type := 1 }],
    frequencies := [], shape := none, service := "sv", route := "r" }

/-- The feed of the C3 counterexample. -/
def feedC3 : Feed :=
  { trips := [tripC3]
    stops := [{ id := "s", location_type := 0, parent_station := none }]
    transfers := []
    pathways := []
    shapes := []
    services := ["sv"]
    routes := [{ id := "r", agency := none }]
    agencies := []
    fareAttributes := [] }

/-- The feed of the C8 counterexample: a single unreferenced entrance
(location_type 2). -/
def feedC8 : Feed :=
  { trips := [], stops := [{ id := "E", location_type := 2, parent_station := none }]
    transfers := [], pathways := [], shapes := [], services := [], routes := []
    agencies := [], fareAttributes := [] }

/-- The feed of the C9 failing input: a depth-2 parent chain (boarding area
C with platform parent B inside station A) where nothing else references
any of the three stops. -/
def feedC9 : Feed :=
  { trips := []
    stops := [{ id := "A", location_type := 1, parent_station := none },
              { id := "B", location_type := 0, parent_station := some "A" },
              { id := "C", location_type := 4, parent_station := some "B" }]
    transfers := [], pathways := [], shapes := [], services := [], routes := []
    agencies := [], fareAttributes := [] }


/-! ## Route duplicate remover (routeduplicateremover.go lines 169-216) -/

/-- Embedding of the reference-selection loop of
`RouteDuplicateRemover.combineRoutes` (routeduplicateremover.go lines
170-177): starting from `routes[0]`, replace the reference whenever a
route with a strictly shorter id appears.  The Go comment reads
"heuristic: use the route with the shortest ID as reference". -/
def shortestRefF (ref : Route) (r : Route) : Route :=
  if r.id.length < ref.id.length then r else ref

/-- The selection fold itself. -/
def combineRoutesRef (routes : List Route) (r0 : Route) : Route :=
  routes.foldl shortestRefF r0

/-- The fare-attribute rewrite of one `combineRoutes` iteration
(routeduplicateremover.go lines 194-212): drop every fare rule naming the
eliminated route; delete a fare attribute whose rule list becomes empty
although it was non-empty before. -/
def combineFareStep (rid : String) (fas : List FareAttribute) : List FareAttribute :=
  fas.foldr (fun fa acc =>
    let nr := fa.rules.filter fun fr => !(fr.route == some rid)
    if nr.isEmpty && !fa.rules.isEmpty then acc else { fa with rules := nr } :: acc) []

/-- Loop body of `RouteDuplicateRemover.combineRoutes` for one route of the
equivalence class (routeduplicateremover.go lines 179-215): skip the
reference itself, retarget the route's trips to the reference, rewrite the
fare attributes, delete the route. -/
def combineRoutesStep (ref : Route) (fd : Feed) (r : Route) : Feed :=
  if r.id == ref.id then fd
  else
    { fd with
      trips := fd.trips.map fun t =>
        if t.route == r.id then { t with route := ref.id } else t
      fareAttributes := combineFareStep r.id fd.fareAttributes
      routes := fd.routes.filter fun r2 => !(r2.id == r.id) }

/-- Embedding of `RouteDuplicateRemover.combineRoutes` (routeduplicateremover.go
lines 169-216).  Go pointer identity between routes of the class is id
equality here, since the feed keys distinct route objects by distinct ids.
Go would panic on an empty class; call sites always pass at least two
routes. -/
def combineRoutes (feed : Feed) (routes : List Route) : Feed :=
  match routes with
  | [] => feed
  | r0 :: _ => routes.foldl (combineRoutesStep (combineRoutesRef routes r0)) feed

/-- Embedding of `StopDuplicateRemover.numColons` (stopclusteridx.go lines
576-584), the colon count the spec attributes - wrongly - to the route
reference selection. -/
def numColons (str : String) : Nat :=
  str.toList.foldl (fun count c => if c = ':' then count + 1 else count) 0

/-- The effect of one fare-attribute rewrite on a single attribute, as an
optional result: the rewritten attribute, or nothing when it is deleted. -/
def fareG (rid : String) (fa : FareAttribute) : Option FareAttribute :=
  let nr := fa.rules.filter fun fr => !(fr.route == some rid)
  if nr.isEmpty && !fa.rules.isEmpty then none else some { fa with rules := nr }

/-- The combined effect of all fare-attribute rewrites of a class on a
single attribute: drop every rule naming an eliminated route; delete the
attribute when this empties a previously non-empty rule list. -/
def fareGAll (routes : List Route) (refId : String) (fa : FareAttribute) : Option FareAttribute :=
  let nr := fa.rules.filter fun fr =>
    !(routes.any fun r => !(r.id == refId) && fr.route == some r.id)
  if nr.isEmpty && !fa.rules.isEmpty then none else some { fa with rules := nr }

/-- A route id `x` is eliminated by the class `routes` under reference id
`refId` when some route of the class other than the reference carries it. -/
def elimB (routes : List Route) (refId : String) (x : String) : Bool :=
  routes.any fun r => !(r.id == refId) && r.id == x

/-- First route of the C5 counterexample class: two colons, longer id. -/
def routeABC : Route := { id := "a:b:c", agency := none }

/-- Second route of the C5 counterexample class: zero colons, shorter id. -/
def routeXY : Route := { id := "xy", agency := none }

/-- The feed of the C5 counterexample: one trip on route `a:b:c`. -/
def feedC5 : Feed :=
  { trips := [{ id := "t1", stopTimes := [], frequencies := [], shape := none,
                service := "sv", route := "a:b:c" }]
    stops := [], transfers := [], pathways := [], shapes := [], services := []
    routes := [routeABC, routeXY], agencies := [], fareAttributes := [] }


/-! ## Trip duplicate remover stop-time equality (src/unnamed/part_000) -/

/-- Embedding of `gtfs.Stop` for the trip deduplicator: id, location type
and parent pointer.  The parent chain is materialised (depth at most 2 in
valid feeds); Go pointer equality between stops becomes value equality,
which coincides with pointer equality since the feed keys distinct stop
objects by distinct ids. -/
inductive StopP where
  | mk (id : String) (location_type : Int) (parent_station : Option StopP)

/-- The id field of a stop. -/
def StopP.id : StopP → String
  | .mk i _ _ => i

/-- The location type of a stop. -/
def StopP.location_type : StopP → Int
  | .mk _ lt _ => lt

/-- The parent pointer of a stop. -/
def StopP.parent_station : StopP → Option StopP
  | .mk _ _ p => p

/-- Embedding of `TripDuplicateRemover.getParent` (src/unnamed/part_000
lines 159-177): stations resolve to themselves; stops, entrances and nodes
to their parent when present; boarding areas to their grandparent when
present, else their parent; everything else to itself. -/
def getParent (stop : StopP) : StopP :=
  if stop.location_type == 1 then stop
  else if stop.location_type == 0 || stop.location_type == 2 || stop.location_type == 3 then
    match stop.parent_station with
    | some p => p
    | none => stop
  else if stop.location_type == 4 then
    match stop.parent_station with
    | some p =>
      match p.parent_station with
      | some pp => pp
      | none => p
    | none => stop
  else stop

/-- Embedding of `TripDuplicateRemover.stopEq` (src/unnamed/part_000 lines
410-413).  The Go comparison is pointer equality of the two parents; the
feed keys distinct stop objects by distinct ids, so it is id equality
here. -/
def stopEq (a b : StopP) : Bool := (getParent a).id == (getParent b).id

/-- Embedding of one `gtfs.StopTime` as the trip deduplicator reads it:
stop, arrival and departure (seconds). -/
structure StopTimeT where
  stop : StopP
  arrival_time : Int
  departure_time : Int

/-- Default stop time used for in-bounds indexing. -/
def stDummy : StopTimeT := { stop := .mk "" 0 none, arrival_time := 0, departure_time := 0 }

/-- A trip as the stop-time equality reads it. -/
structure TripT where
  stopTimes : List StopTimeT

/-- Embedding of `TripDuplicateRemover.tripStEq` (src/unnamed/part_000
lines 416-446): equal length, and per position the parents match and the
first `continue` of the loop fires - departure match at position 0,
arrival match at the last position, or both times match. -/
def tripStEq (a b : TripT) : Bool :=
  if a.stopTimes.length != b.stopTimes.length then false
  else (List.range a.stopTimes.length).all fun i =>
    let aSt := a.stopTimes.getD i stDummy
    let bSt := b.stopTimes.getD i stDummy
    stopEq aSt.stop bSt.stop &&
    ((i == 0 && aSt.departure_time == bSt.departure_time) ||
     (i == a.stopTimes.length - 1 && aSt.arrival_time == bSt.arrival_time) ||
     (aSt.arrival_time == bSt.arrival_time && aSt.departure_time == bSt.departure_time))

/-- The amended specification of the stop-time equality, written from the
corrected claim text: same length; same parents everywhere; for trips with
a single stop time, departure or arrival must agree there; otherwise the
departures agree at position 0, the arrivals at the last position, and
both times at every interior position. -/
def tripStEqAmended (a b : TripT) : Bool :=
  (a.stopTimes.length == b.stopTimes.length) &&
  (List.range a.stopTimes.length).all fun i =>
    let aSt := a.stopTimes.getD i stDummy
    let bSt := b.stopTimes.getD i stDummy
    stopEq aSt.stop bSt.stop &&
    (if a.stopTimes.length == 1 then
        (aSt.departure_time == bSt.departure_time || aSt.arrival_time == bSt.arrival_time)
     else if i == 0 then aSt.departure_time == bSt.departure_time
     else if i == a.stopTimes.length - 1 then aSt.arrival_time == bSt.arrival_time
     else aSt.arrival_time == bSt.arrival_time && aSt.departure_time == bSt.departure_time)

/-- The shared stop of the C6 counterexample trips. -/
def stopS : StopP := .mk "s" 0 none

/-- First C6 counterexample trip: one stop time, arrival 1, departure 5. -/
def tripTA : TripT := { stopTimes := [{ stop := stopS, arrival_time := 1, departure_time := 5 }] }

/-- Second C6 counterexample trip: one stop time, arrival 2, departure 5. -/
def tripTB : TripT := { stopTimes := [{ stop := stopS, arrival_time := 2, departure_time := 5 }] }



/-! ### Stop duplicate remover: stopEquals (stopclusteridx.go 587-629)

The geographic distance `distSApprox` is floating-point haversine
arithmetic; it is abstracted here as an explicit rational parameter
`dist`, the approximate distance between the two stops in meters.  Go's
`len(s) == 0` on a string is embedded as `s == ""`, nil pointers as
`Option.none`, and pointer equality of parent/level pointers as equality
of the pointed-to ids. -/

structure StopC4 where
  id : String
  code : String
  name : String
  desc : String
  zone_id : String
  url : Option String
  location_type : Int
  parent_station : Option String
  timezone : String
  wheelchair_boarding : Int
  level : Option String
  platform_code : String
deriving DecidableEq

/-- Configuration of StopDuplicateRemover relevant to stopEquals. -/
structure SDRConfig where
  fuzzy : Bool
  distThresholdStop : ℚ
  distThresholdStation : ℚ

/-- The configuration `main` (gtfstidy.go 557-563) constructs in BOTH
strict and fuzzy mode: DistThresholdStop = 5.0, DistThresholdStation = 50,
Fuzzy from the command-line flag. -/
def mainStopDedupeCfg (fuzzy : Bool) : SDRConfig :=
  { fuzzy := fuzzy, distThresholdStop := 5, distThresholdStation := 50 }

/-- StopDuplicateRemover.stopEquals.  `addFlds` models feed.StopsAddFlds:
one lookup function per additional field, mapping a stop id to its value
(Go map lookup defaults to the empty string). -/
def stopEquals (cfg : SDRConfig) (addFlds : List (String → String))
    (dist : ℚ) (a b : StopC4) : Bool :=
  let addFldsEq : Bool :=
    if cfg.fuzzy then true else addFlds.all (fun v => v a.id == v b.id)
  let parentsEqual : Bool :=
    a.parent_station.isSome && a.parent_station == b.parent_station
  if cfg.fuzzy then
    ((decide (dist ≤ cfg.distThresholdStop / 2) && parentsEqual)
        || a.code == b.code || a.code == "" || b.code == "") &&
    ((decide (dist ≤ cfg.distThresholdStop / 2) && parentsEqual)
        || a.name == b.name) &&
    (a.desc == b.desc) &&
    (a.zone_id == b.zone_id) &&
    (a.url == b.url || a.url.isNone || b.url.isNone) &&
    (a.location_type == b.location_type) &&
    (a.parent_station == b.parent_station) &&
    (a.timezone == b.timezone) &&
    (a.wheelchair_boarding == b.wheelchair_boarding) &&
    (a.level == b.level || a.level.isNone || b.level.isNone) &&
    ((decide (dist ≤ cfg.distThresholdStop / 2) && parentsEqual
        && (a.platform_code == "" || b.platform_code == ""))
      || a.platform_code == b.platform_code) &&
    (decide (dist ≤ cfg.distThresholdStop)
      || (a.location_type == 1 && decide (dist ≤ cfg.distThresholdStation)))
  else
    addFldsEq && a.code == b.code &&
    a.name == b.name &&
    a.desc == b.desc &&
    a.zone_id == b.zone_id &&
    a.url == b.url &&
    a.location_type == b.location_type &&
    a.parent_station == b.parent_station &&
    a.timezone == b.timezone &&
    a.wheelchair_boarding == b.wheelchair_boarding &&
    a.level == b.level &&
    a.platform_code == b.platform_code &&
    (decide (dist ≤ cfg.distThresholdStop)
      || (a.location_type == 1 && decide (dist ≤ cfg.distThresholdStation)))

/-- Spec-shaped predicate for the amended C4, with the numeric thresholds
the program actually uses written out: 5 m for stops and 50 m for stations
in BOTH modes; in fuzzy mode code/name/platform code are relaxed when the
distance is at most 2.5 m AND the stops share the same non-null parent
(platform code additionally requires one of the two codes to be empty,
and code is also relaxed when either code is empty), while url and level
are relaxed whenever either side is null, independent of the parent. -/
def stopEqualsAmended (fuzzy : Bool) (addFlds : List (String → String))
    (dist : ℚ) (a b : StopC4) : Prop :=
  let relaxed : Prop :=
    dist ≤ 5 / 2 ∧ a.parent_station ≠ none
      ∧ a.parent_station = b.parent_station
  if fuzzy then
    (relaxed ∨ a.code = b.code ∨ a.code = "" ∨ b.code = "") ∧
    (relaxed ∨ a.name = b.name) ∧
    a.desc = b.desc ∧
    a.zone_id = b.zone_id ∧
    (a.url = b.url ∨ a.url = none ∨ b.url = none) ∧
    a.location_type = b.location_type ∧
    a.parent_station = b.parent_station ∧
    a.timezone = b.timezone ∧
    a.wheelchair_boarding = b.wheelchair_boarding ∧
    (a.level = b.level ∨ a.level = none ∨ b.level = none) ∧
    ((relaxed ∧ (a.platform_code = "" ∨ b.platform_code = ""))
      ∨ a.platform_code = b.platform_code) ∧
    (dist ≤ 5 ∨ (a.location_type = 1 ∧ dist ≤ 50))
  else
    (∀ v ∈ addFlds, v a.id = v b.id) ∧
    a.code = b.code ∧
    a.name = b.name ∧
    a.desc = b.desc ∧
    a.zone_id = b.zone_id ∧
    a.url = b.url ∧
    a.location_type = b.location_type ∧
    a.parent_station = b.parent_station ∧
    a.timezone = b.timezone ∧
    a.wheelchair_boarding = b.wheelchair_boarding ∧
    a.level = b.level ∧
    a.platform_code = b.platform_code ∧
    (dist ≤ 5 ∨ (a.location_type = 1 ∧ dist ≤ 50))

/-- A concrete stop for the C4 counterexample. -/
def stopC4A : StopC4 :=
  { id := "s1", code := "", name := "Main St", desc := "", zone_id := ""
    url := none, location_type := 0, parent_station := none
    timezone := "", wheelchair_boarding := 0, level := none
    platform_code := "" }

/-- A second stop, identical to `stopC4A` except for the id. -/
def stopC4B : StopC4 :=
  { stopC4A with id := "s2" }


/-! ### ShapeRemeasurer (platformcodedropper.go, second document, 98-190)

A shape is a list of points; a point's shape_dist_traveled is
`Option ℚ` (`none` models NaN, i.e. HasDistanceTraveled() = false).
The floating-point haversine `distP` is abstracted as a parameter on the
coordinate pairs, so that writing dist_traveled fields cannot change
computed distances, exactly as in the source. -/

structure PointC7 where
  lat : ℚ
  lon : ℚ
  dist_traveled : Option ℚ
deriving DecidableEq

def ptDummy : PointC7 := { lat := 0, lon := 0, dist_traveled := none }

def coordC7 (p : PointC7) : ℚ × ℚ := (p.lat, p.lon)

/-- ShapeRemeasurer.remeasureBetween, one loop iteration at index i with
running ground distance d; writes indices i, i+1, ..., e-1. -/
def remeasureBetweenN (distP : ℚ × ℚ → ℚ × ℚ → ℚ) (e : Nat)
    (avg lastM : ℚ) : Nat → Nat → ℚ → List PointC7 → List PointC7
  | 0, _, _, pts => pts
  | fuel + 1, i, d, pts =>
    if i < e then
      let d1 : ℚ :=
        if 0 < i then
          d + distP (coordC7 (pts.getD (i - 1) ptDummy))
              (coordC7 (pts.getD i ptDummy))
        else d
      let p := pts.getD i ptDummy
      remeasureBetweenN distP e avg lastM fuel (i + 1) d1
        (pts.set i { p with dist_traveled := some (lastM + d1 * avg) })
    else pts

/-- ShapeRemeasurer.remeasureBetween(i, end, mPUnit, lastMeasure, shape). -/
def remeasureBetween (distP : ℚ × ℚ → ℚ × ℚ → ℚ) (i e : Nat)
    (avg lastM : ℚ) (pts : List PointC7) : List PointC7 :=
  remeasureBetweenN distP e avg lastM (e - i) i 0 pts

/-- Loop state of ShapeRemeasurer.remeasureKnown. -/
structure RKState where
  pts : List PointC7
  c : Nat
  cc : Nat
  m : ℚ
  lastMIndex : Int
  lastM : ℚ
  hasLast : Bool
  d : ℚ

/-- One iteration (index i) of the remeasureKnown loop. -/
def rkStep (distP : ℚ × ℚ → ℚ × ℚ → ℚ) (i : Nat) (st : RKState) :
    RKState :=
  let d1 : ℚ :=
    if 0 < i then
      st.d + distP (coordC7 (st.pts.getD (i - 1) ptDummy))
          (coordC7 (st.pts.getD i ptDummy))
    else st.d
  match (st.pts.getD i ptDummy).dist_traveled with
  | none => { st with d := d1 }
  | some dv =>
    let st1 : RKState :=
      if st.hasLast = true ∧ 0 < d1 then
        let localM := (dv - st.lastM) / d1
        let pts1 :=
          if 1 < (i : Int) - st.lastMIndex then
            remeasureBetween distP (st.lastMIndex + 1).toNat i localM
              st.lastM st.pts
          else st.pts
        { st with pts := pts1, m := st.m + localM, c := st.c + 1
                  cc := st.cc + 1 }
      else { st with cc := st.cc + 1 }
    { st1 with lastMIndex := (i : Int), lastM := dv, hasLast := true
               d := 0 }

/-- The remeasureKnown loop, fuel = number of remaining iterations. -/
def remeasureKnownN (distP : ℚ × ℚ → ℚ × ℚ → ℚ) :
    Nat → Nat → RKState → RKState
  | 0, _, st => st
  | fuel + 1, i, st =>
    if i < st.pts.length then
      remeasureKnownN distP fuel (i + 1) (rkStep distP i st)
    else st

/-- ShapeRemeasurer.remeasureKnown: the final loop state; the Go return
values are rkAvg of it and (cc == 0), the shape is its pts field. -/
def remeasureKnownRun (distP : ℚ × ℚ → ℚ × ℚ → ℚ)
    (pts : List PointC7) : RKState :=
  remeasureKnownN distP pts.length 0
    { pts := pts, c := 0, cc := 0, m := 0, lastMIndex := -1, lastM := -1
      hasLast := false, d := 0 }

/-- The average measurement remeasureKnown returns (0 when c = 0). -/
def rkAvg (st : RKState) : ℚ := if st.c = 0 then 0 else st.m / (st.c : ℚ)

/-- The remeasureUnknown loop over indices 0..len (inclusive). -/
def remeasureUnknownN (distP : ℚ × ℚ → ℚ × ℚ → ℚ) (avg : ℚ) :
    Nat → Nat → Option Nat → ℚ → List PointC7 → List PointC7
  | 0, _, _, _, pts => pts
  | fuel + 1, i, lastUM, lastM, pts =>
    if i = pts.length ∨ (pts.getD i ptDummy).dist_traveled.isSome then
      let pts1 :=
        match lastUM with
        | some j => remeasureBetween distP j i avg lastM pts
        | none => pts
      if i = pts.length then pts1
      else
        remeasureUnknownN distP avg fuel (i + 1) none
          (((pts1.getD i ptDummy).dist_traveled).getD lastM) pts1
    else
      remeasureUnknownN distP avg fuel (i + 1)
        (if lastUM.isNone then some i else lastUM) lastM pts

/-- ShapeRemeasurer.remeasureUnknown(shape, avgMeasure). -/
def remeasureUnknown (distP : ℚ × ℚ → ℚ × ℚ → ℚ) (avg : ℚ)
    (pts : List PointC7) : List PointC7 :=
  remeasureUnknownN distP avg (pts.length + 1) 0 none 0 pts

/-- ShapeRemeasurer.remeasure(shape), with Force as a parameter.  The
first branch fires when NO point has a measurement (cc = 0) and assumes
the meter unit WITHOUT consulting Force; Force is consulted only in the
third branch (some measurements exist but the average is 0). -/
def remeasure (force : Bool) (distP : ℚ × ℚ → ℚ × ℚ → ℚ)
    (pts : List PointC7) : List PointC7 :=
  let st := remeasureKnownRun distP pts
  if st.cc = 0 then remeasureUnknown distP 1 st.pts
  else if rkAvg st ≠ 0 then remeasureUnknown distP (rkAvg st) st.pts
  else if rkAvg st = 0 ∧ force = true then remeasureUnknown distP 1 st.pts
  else st.pts.map fun p => { p with dist_traveled := none }

/-- Two concrete measurement-free points for C7. -/
def ptC7x : PointC7 := { lat := 0, lon := 0, dist_traveled := none }

def ptC7y : PointC7 := { lat := 1, lon := 1, dist_traveled := none }


/-! ### FrequencyMinimizer, per-class step (serviceminimizer_test.go,
second document, Run 283-433)

For one class of time-independent-equivalent trips, Run either leaves the
feed unchanged (guard `len(packed) >= len(eqs.coveredTrips)` at 343) or
rewrites the class: the current trip t is reused as the first template
trip, one fresh-id trip is created per further pack (349-390), and every
covered trip except t is deleted (427-433).  The feed's trip collection
is modelled by its list of trip ids; the fresh-id generation loop
(356-364), which retries suffixes until an unused id is found, is
abstracted by the list `newIds` of ids it produced - the loop guarantees
they are distinct and unused, which the theorems take as hypotheses. -/

def processClass (tripIds : List String) (t : String)
    (covered : List String) (packed : Nat) (newIds : List String) :
    List String :=
  if covered.length ≤ packed then tripIds
  else tripIds.filter (fun i => i == t || !(covered.contains i)) ++ newIds

/-! ## Theorems -/

theorem le_cropBeginN (s : Service) (n : Nat) : ∀ b : Int, b ≤ cropBeginN s n b := by
  induction n with
  | zero => intro b; exact le_refl b
  | succ n ih =>
    intro b
    rw [cropBeginN]
    split
    · have := ih (b + 1)
      omega
    · exact le_refl b
theorem le_cropBegin (s : Service) (b e : Int) : b ≤ cropBegin s b e :=
  le_cropBeginN s _ b
theorem cropBeginN_cases (s : Service) (n : Nat) :
    ∀ b : Int, cropBeginN s n b = b + n ∨ s.isActiveOn (cropBeginN s n b) = true := by
  induction n with
  | zero => intro b; left; simp [cropBeginN]
  | succ n ih =>
    intro b
    rw [cropBeginN]
    split
    · rcases ih (b + 1) with h | h
      · left; omega
      · right; exact h
    · rename_i hcond
      right
      cases ht : s.isActiveOn b with
      | false => exact absurd ht hcond
      | true => rfl
theorem cropBegin_active (s : Service) (b e : Int)
    (h : cropBegin s b e < e) : s.isActiveOn (cropBegin s b e) = true := by
  rcases cropBeginN_cases s (e - b).toNat b with heq | hact
  · rw [cropBegin] at h
    have hle := le_cropBeginN s (e - b).toNat b
    omega
  · exact hact
theorem cropEndN_le (s : Service) (n : Nat) : ∀ e : Int, cropEndN s n e ≤ e := by
  induction n with
  | zero => intro e; exact le_refl e
  | succ n ih =>
    intro e
    rw [cropEndN]
    split
    · have := ih (e - 1)
      omega
    · exact le_refl e
theorem cropEnd_le (s : Service) (b e : Int) : cropEnd s b e ≤ e :=
  cropEndN_le s _ e
theorem cropEndN_cases (s : Service) (n : Nat) :
    ∀ e : Int, cropEndN s n e = e - n ∨ s.isActiveOn (cropEndN s n e) = true := by
  induction n with
  | zero => intro e; left; simp [cropEndN]
  | succ n ih =>
    intro e
    rw [cropEndN]
    split
    · rcases ih (e - 1) with h | h
      · left; omega
      · right; exact h
    · rename_i hcond
      right
      cases ht : s.isActiveOn e with
      | false => exact absurd ht hcond
      | true => rfl
theorem cropEnd_active (s : Service) (b e : Int)
    (h : b < cropEnd s b e) : s.isActiveOn (cropEnd s b e) = true := by
  rcases cropEndN_cases s (e - b).toNat e with heq | hact
  · rw [cropEnd] at h
    have hle := cropEndN_le s (e - b).toNat e
    omega
  · exact hact
/-- The rewrite step preserves the active-day set for any window whose begin
is at or after `start`, whose map is zeroed on a collapsed window, and whose
end is an active day whenever the window is non-degenerate. -/
theorem updateServiceWrite_isActiveOn (s : Service) (nm : Nat → Bool)
    (nb ne start end_ : Int)
    (hrange : ∀ d : Int, s.isActiveOn d = true → start ≤ d ∧ d ≤ end_)
    (h1 : start ≤ nb)
    (h2 : nb = ne → ∀ i, nm i = false)
    (h3 : nb < ne → s.isActiveOn ne = true) :
    ∀ d : Int, (updateServiceWrite s nm nb ne start end_).isActiveOn d = s.isActiveOn d := by
  intro d
  by_cases hin : start ≤ d ∧ d ≤ end_
  · by_cases hout : d < nb ∨ ne < d
    · cases hact : s.isActiveOn d with
      | true =>
        have hexc : (updateServiceWrite s nm nb ne start end_).exceptions d = some 1 := by
          simp [updateServiceWrite, hin, hout, hact]
        rw [Service.isActiveOn, hexc]
        simp [hact]
      | false =>
        have hexc : (updateServiceWrite s nm nb ne start end_).exceptions d = none := by
          simp [updateServiceWrite, hin, hout, hact]
        rw [Service.isActiveOn, hexc]
        show (nm (weekday d) && decide (nb ≤ d) && decide (d ≤ ne)) = false
        rcases hout with hlt | hgt
        · simp [show ¬ (nb ≤ d) by omega, hact]
        · simp [show ¬ (d ≤ ne) by omega, hact]
    · push_neg at hout
      have hnout : ¬ (d < nb ∨ ne < d) := by omega
      by_cases hmap : nm (weekday d) = true
      · cases hact : s.isActiveOn d with
        | true =>
          have hexc : (updateServiceWrite s nm nb ne start end_).exceptions d = none := by
            simp [updateServiceWrite, hin, hnout, hact, hmap]
          rw [Service.isActiveOn, hexc]
          show (nm (weekday d) && decide (nb ≤ d) && decide (d ≤ ne)) = true
          simp [hmap, hout.1, hout.2]
        | false =>
          have hexc : (updateServiceWrite s nm nb ne start end_).exceptions d = some 2 := by
            simp [updateServiceWrite, hin, hnout, hact, hmap]
          rw [Service.isActiveOn, hexc]
          simp [hact]
      · rw [Bool.not_eq_true] at hmap
        cases hact : s.isActiveOn d with
        | true =>
          have hexc : (updateServiceWrite s nm nb ne start end_).exceptions d = some 1 := by
            simp [updateServiceWrite, hin, hnout, hact, hmap]
          rw [Service.isActiveOn, hexc]
          simp [hact]
        | false =>
          have hexc : (updateServiceWrite s nm nb ne start end_).exceptions d = none := by
            simp [updateServiceWrite, hin, hnout, hact, hmap]
          rw [Service.isActiveOn, hexc]
          show (nm (weekday d) && decide (nb ≤ d) && decide (d ≤ ne)) = false
          simp [hmap, hact]
  · have hact : s.isActiveOn d = false := by
      cases hact : s.isActiveOn d with
      | true => exact absurd (hrange d hact) hin
      | false => rfl
    have hexc : (updateServiceWrite s nm nb ne start end_).exceptions d = none := by
      simp [updateServiceWrite, hin]
    rw [Service.isActiveOn, hexc, hact]
    show (nm (weekday d) && decide (nb ≤ d) && decide (d ≤ ne)) = false
    rcases (by omega : d < start ∨ end_ < d) with hlt | hgt
    · simp [show ¬ (nb ≤ d) by omega]
    · rcases (by omega : nb < ne ∨ nb = ne ∨ ne < nb) with hord | hord | hord
      · have := (hrange ne (h3 hord)).2
        simp [show ¬ (d ≤ ne) by omega]
      · simp [h2 hord]
      · by_cases hdnb : nb ≤ d
        · simp [show ¬ (d ≤ ne) by omega]
        · simp [hdnb]
/-- Whatever window and bitmap the exhaustive search selects, the service
minimizer's rewrite preserves the active-day set, provided every active
date lies in `[start, end_]` (guaranteed by `GetDateRange`, which returns
the first and last active dates). -/
theorem updateService_isActiveOn (s : Service) (bestMap bestA bestB : Nat)
    (start end_ : Int)
    (hrange : ∀ d : Int, s.isActiveOn d = true → start ≤ d ∧ d ≤ end_) :
    ∀ d : Int, (updateService s bestMap bestA bestB start end_).isActiveOn d = s.isActiveOn d := by
  have h1 : start ≤ cropBegin s (start + bestA) (start + bestB) := by
    have := le_cropBegin s (start + bestA) (start + bestB)
    omega
  apply updateServiceWrite_isActiveOn s _ _ _ _ _ hrange h1
  · intro h i
    rw [if_pos h]
  · intro hlt
    have hle : cropEnd s (cropBegin s (start + bestA) (start + bestB)) (start + bestB) ≤ start + bestB :=
      cropEnd_le s _ _
    exact cropEnd_active s _ _ hlt
theorem getActiveOnMapN_length (s : Service) (n : Nat) :
    ∀ a : Int, (getActiveOnMapN s n a).length = n := by
  induction n with
  | zero => intro a; rfl
  | succ n ih => intro a; simp [getActiveOnMapN, ih (a + 1)]
theorem getActiveOnMapN_getD (s : Service) (n : Nat) :
    ∀ (a : Int) (i : Nat), i < n →
      (getActiveOnMapN s n a).getD i false = s.isActiveOn (a + i) := by
  induction n with
  | zero => intro a i h; omega
  | succ n ih =>
    intro a i h
    cases i with
    | zero => simp [getActiveOnMapN]
    | succ i =>
      have := ih (a + 1) i (by omega)
      simp only [getActiveOnMapN, List.getD_cons_succ]
      rw [this]
      congr 1
      omega
/-- Services whose compressed forms are `servEqual` are active on exactly the
same dates, provided the supplied endpoints bound their active dates (as the
first and last active dates returned by the gtfsparser library do). -/
theorem servEqual_isActiveOn (sa sb : Service) (fa la fb lb : Int)
    (ha : ∀ d : Int, sa.isActiveOn d = true → fa ≤ d ∧ d ≤ la)
    (hb : ∀ d : Int, sb.isActiveOn d = true → fb ≤ d ∧ d ≤ lb)
    (heq : servEqual (compressService sa fa la) (compressService sb fb lb) = true) :
    ∀ d : Int, sa.isActiveOn d = sb.isActiveOn d := by
  rw [servEqual] at heq
  by_cases hse : fa ≠ fb ∨ la ≠ lb
  · rw [if_pos (by simpa [compressService] using hse)] at heq
    exact absurd heq (by simp)
  · push_neg at hse
    rw [if_neg (by simpa [compressService] using (by omega : ¬ (fa ≠ fb ∨ la ≠ lb)))] at heq
    obtain ⟨hfa, hla⟩ := hse
    subst hfa
    subst hla
    split at heq
    · exact absurd heq (by simp)
    · intro d
      by_cases hd : fa ≤ d ∧ d ≤ la
      · have hlen : (compressService sa fa la).activeMap.length = (la + 1 - fa).toNat := by
          simp [compressService, getActiveOnMap, getActiveOnMapN_length]
        have hidx : (d - fa).toNat < (la + 1 - fa).toNat := by omega
        have hall := List.all_eq_true.mp heq ((d - fa).toNat)
          (by rw [List.mem_range, hlen]; exact hidx)
        have hga : (compressService sa fa la).activeMap.getD ((d - fa).toNat) false
            = sa.isActiveOn d := by
          simp only [compressService, getActiveOnMap]
          rw [getActiveOnMapN_getD sa _ _ _ hidx]
          congr 1
          omega
        have hgb : (compressService sb fa la).activeMap.getD ((d - fa).toNat) false
            = sb.isActiveOn d := by
          simp only [compressService, getActiveOnMap]
          rw [getActiveOnMapN_getD sb _ _ _ hidx]
          congr 1
          omega
        rw [hga, hgb] at hall
        exact eq_of_beq hall
      · have hA : sa.isActiveOn d = false := by
          cases h : sa.isActiveOn d with
          | true => exact absurd (ha d h) hd
          | false => rfl
        have hB : sb.isActiveOn d = false := by
          cases h : sb.isActiveOn d with
          | true => exact absurd (hb d h) hd
          | false => rfl
        rw [hA, hB]
/-- C1. For both the service duplicate remover and the service minimizer,
rewritten or merged services are active on exactly the same calendar dates
as the originals (we prove the equality for every date, which subsumes the
claimed interval `[min(start, start'), max(end, end')]`); merging via
`servEqual` only ever identifies services with identical active-date sets,
so the active dates of every surviving service are unchanged. -/
theorem claim_C1_service_equivalence :
    (∀ (s : Service) (bestMap bestA bestB : Nat) (start end_ : Int),
        (∀ d : Int, s.isActiveOn d = true → start ≤ d ∧ d ≤ end_) →
        ∀ d : Int,
          (updateService s bestMap bestA bestB start end_).isActiveOn d = s.isActiveOn d)
    ∧ (∀ (sa sb : Service) (fa la fb lb : Int),
        (∀ d : Int, sa.isActiveOn d = true → fa ≤ d ∧ d ≤ la) →
        (∀ d : Int, sb.isActiveOn d = true → fb ≤ d ∧ d ≤ lb) →
        servEqual (compressService sa fa la) (compressService sb fb lb) = true →
        ∀ d : Int, sa.isActiveOn d = sb.isActiveOn d) :=
  ⟨updateService_isActiveOn, servEqual_isActiveOn⟩
theorem svcRange_bounds : ∀ d : Int, svcRange.isActiveOn d = true → 3 ≤ d ∧ d ≤ 5 := by
  intro d h
  simp [svcRange, Service.isActiveOn] at h
  omega
theorem svcExc_bounds : ∀ d : Int, svcExc.isActiveOn d = true → 2 ≤ d ∧ d ≤ 2 := by
  intro d h
  by_cases hd : d = 2
  · omega
  · simp [svcExc, Service.isActiveOn, hd] at h
theorem svcCal_bounds : ∀ d : Int, svcCal.isActiveOn d = true → 2 ≤ d ∧ d ≤ 2 := by
  intro d h
  simp [svcCal, Service.isActiveOn, weekday] at h
  omega
/-- Witness for C1: both halves applied at concrete services, hypotheses
discharged at concrete inputs and the definitions evaluated. -/
theorem claim_C1_service_equivalence_witness :
    (updateService svcRange 9 0 2 3 5).isActiveOn 4 = svcRange.isActiveOn 4
    ∧ svcExc.isActiveOn 2 = svcCal.isActiveOn 2 :=
  ⟨claim_C1_service_equivalence.1 svcRange 9 0 2 3 5 svcRange_bounds 4,
   claim_C1_service_equivalence.2 svcExc svcCal 2 2 2 2 svcExc_bounds svcCal_bounds
     (by decide) 2⟩

theorem ite_sublist {a : Type} (b : Prop) [Decidable b] (L : List a) :
    List.Sublist (if b then L else []) L := by
  split
  · exact List.Sublist.refl L
  · exact List.nil_sublist L

/-- Every pipeline the flag record can produce is a subsequence of the
fixed master sequence: enabled processors always run in the master order,
whatever combination of flags is active. -/
theorem flatten_sublist_flatten {a : Type} :
    ∀ (xs ys : List (List a)), List.Forall₂ (fun u v => List.Sublist u v) xs ys →
      List.Sublist xs.flatten ys.flatten := by
  intro xs ys h
  induction h with
  | nil => exact List.Sublist.refl []
  | cons hs _ ih =>
    simp only [List.flatten_cons]
    exact List.Sublist.append hs ih

theorem pipelineSegmentsA_sublist (f : Flags) :
    List.Forall₂ (fun u v => List.Sublist u v) (pipelineSegmentsA f) pipelineMasterSegmentsA := by
  unfold pipelineSegmentsA pipelineMasterSegmentsA
  refine List.Forall₂.cons (ite_sublist _ _) ?_
  refine List.Forall₂.cons (ite_sublist _ _) ?_
  refine List.Forall₂.cons (ite_sublist _ _) ?_
  refine List.Forall₂.cons (ite_sublist _ _) ?_
  refine List.Forall₂.cons (ite_sublist _ _) ?_
  refine List.Forall₂.cons (ite_sublist _ _) ?_
  refine List.Forall₂.cons (ite_sublist _ _) ?_
  exact List.Forall₂.cons (ite_sublist _ _) List.Forall₂.nil

theorem pipelineSegmentsB_sublist (f : Flags) :
    List.Forall₂ (fun u v => List.Sublist u v) (pipelineSegmentsB f) pipelineMasterSegmentsB := by
  unfold pipelineSegmentsB pipelineMasterSegmentsB
  refine List.Forall₂.cons (ite_sublist _ _) ?_
  refine List.Forall₂.cons (ite_sublist _ _) ?_
  refine List.Forall₂.cons (ite_sublist _ _) ?_
  refine List.Forall₂.cons ?_ ?_
  · show List.Sublist _
      (([Proc.shapeSnapper] ++ [Proc.stopDuplicateRemover]) ++ [Proc.orphanRemover])
    split
    · exact List.Sublist.append
        (List.Sublist.append (List.Sublist.refl _) (ite_sublist _ _)) (ite_sublist _ _)
    · exact List.nil_sublist _
  refine List.Forall₂.cons (ite_sublist _ _) ?_
  refine List.Forall₂.cons (ite_sublist _ _) ?_
  refine List.Forall₂.cons (ite_sublist _ _) ?_
  exact List.Forall₂.cons (ite_sublist _ _) List.Forall₂.nil

theorem pipelineSegmentsC_sublist (f : Flags) :
    List.Forall₂ (fun u v => List.Sublist u v) (pipelineSegmentsC f) pipelineMasterSegmentsC := by
  unfold pipelineSegmentsC pipelineMasterSegmentsC
  refine List.Forall₂.cons ?_ ?_
  · show List.Sublist _
      ((([Proc.serviceMinimizer] ++ [Proc.tripDuplicateRemover]) ++
        [Proc.orphanRemover]) ++ [Proc.serviceDuplicateRemover])
    split
    · exact List.Sublist.append
        (List.Sublist.append
          (List.Sublist.append (ite_sublist _ _) (List.Sublist.refl _))
          (ite_sublist _ _))
        (ite_sublist _ _)
    · exact List.nil_sublist _
  refine List.Forall₂.cons (ite_sublist _ _) ?_
  refine List.Forall₂.cons (ite_sublist _ _) ?_
  refine List.Forall₂.cons (ite_sublist _ _) ?_
  refine List.Forall₂.cons (ite_sublist _ _) ?_
  refine List.Forall₂.cons (ite_sublist _ _) ?_
  refine List.Forall₂.cons ?_ List.Forall₂.nil
  split
  · exact List.Sublist.refl _
  split
  · exact List.Sublist.refl _
  · exact List.nil_sublist _

theorem buildPipeline_sublist_master (f : Flags) :
    List.Sublist (buildPipeline f) pipelineMaster := by
  have hm : pipelineMaster = pipelineMasterSegments.flatten := by decide
  rw [hm]
  apply flatten_sublist_flatten
  unfold pipelineSegments pipelineMasterSegments
  exact List.rel_append (List.rel_append (pipelineSegmentsA_sublist f)
    (pipelineSegmentsB_sublist f)) (pipelineSegmentsC_sublist f)

/-- Counterexample to C2 as stated: with `-P`, `-c` and `-I` enabled the
pipeline is stop dedupe, service minimize, trip dedupe, service minimize.
The only stop dedupe run sits at position 0, strictly before every service
minimizer run, so stop dedupe does not run after service minimize. -/
theorem claim_C2_counterexample :
    buildPipeline flagsPcI =
      [Proc.stopDuplicateRemover, Proc.serviceMinimizer, Proc.tripDuplicateRemover,
       Proc.serviceMinimizer]
    ∧ (buildPipeline flagsPcI).indexOf Proc.stopDuplicateRemover = 0
    ∧ (buildPipeline flagsPcI).indexOf Proc.serviceMinimizer = 1
    ∧ (buildPipeline flagsPcI).count Proc.stopDuplicateRemover = 1 :=
  ⟨by decide, by decide, by decide, by decide⟩

/-- C2 (amended).  For every combination of enabling flags the enabled
processors run in one fixed order, the subsequence order of
`pipelineMaster` - orphan sweep, agency dedupe, stop dedupe, stop
recluster, shape remeasure, shape minimize, shape dedupe, route dedupe,
service dedupe, then (when trip dedupe is on) service minimize, trip
dedupe, a second orphan sweep and service dedupe, then service minimize,
frequency minimize, ID minimize - regardless of the order in which the
flags are given (the parsed flag record carries no order).  In particular,
when stop dedupe, service minimize and trip dedupe are all enabled, stop
dedupe runs before service minimize and before trip dedupe, not after
service minimize as the spec places it. -/
theorem claim_C2_pipeline_order :
    (∀ f : Flags, List.Sublist (buildPipeline f) pipelineMaster)
    ∧ buildPipeline flagsPcI =
        [Proc.stopDuplicateRemover, Proc.serviceMinimizer, Proc.tripDuplicateRemover,
         Proc.serviceMinimizer] :=
  ⟨buildPipeline_sublist_master, by decide⟩

/-- Counterexample to C3 as stated: in `feedC3` no stop of the only trip
allows pickup or drop-off (every stop time has pickup and drop-off type 1),
yet the trip survives the orphan sweep - `removeTripOrphans` only deletes
trips with no stop times and no frequencies and never consults the pickup
or drop-off types. -/
theorem claim_C3_counterexample :
    feedC3.trips.all (fun t =>
      t.stopTimes.all fun st => st.pickup_type == 1 && st.drop_off_type == 1) = true
    ∧ (orphanRun feedC3).trips.any (fun t => t.id == "t") = true :=
  ⟨by decide, by decide⟩

/-- C3 (amended).  After one run of the orphan sweep a trip survives
exactly when its stop-time sequence is non-empty or it has frequencies;
part (a) of the claim holds, and no deletion based on pickup or drop-off
types takes place. -/
theorem claim_C3_trip_orphans :
    ∀ (f : Feed) (t : Trip), t ∈ f.trips →
      (t ∈ (orphanRun f).trips ↔ ¬(t.stopTimes = [] ∧ t.frequencies = [])) := by
  intro f t ht
  have htr : (orphanRun f).trips = (removeTripOrphans f).trips := rfl
  rw [htr]
  unfold removeTripOrphans
  simp only [List.mem_filter]
  constructor
  · rintro ⟨-, hp⟩ ⟨h1, h2⟩
    simp [h1, h2] at hp
  · intro hne
    refine ⟨ht, ?_⟩
    by_cases h1 : t.stopTimes = []
    · by_cases h2 : t.frequencies = []
      · exact absurd ⟨h1, h2⟩ hne
      · cases hf : t.frequencies with
        | nil => exact absurd hf h2
        | cons a l => simp [h1, hf]
    · cases hs : t.stopTimes with
      | nil => exact absurd hs h1
      | cons a l => simp [hs]

/-- Witness for the amended C3: the counterexample trip has a non-empty
stop-time list, so it survives the sweep. -/
theorem claim_C3_trip_orphans_witness : tripC3 ∈ (orphanRun feedC3).trips :=
  (claim_C3_trip_orphans feedC3 tripC3 (by decide)).mpr (by decide)

/-- Counterexample to C8 as stated: an unreferenced entrance
(location_type 2) is removed by the orphan sweep like any other stop;
`removeStopOrphans` carries no exemption for entrances. -/
theorem claim_C8_counterexample :
    feedC8.stops.all (fun s => s.location_type == 2) = true
    ∧ (orphanRun feedC8).stops = [] :=
  ⟨by decide, by decide⟩

/-- C8 (amended).  The stop sweep runs exactly twice inside the orphan
sweep, and a stop - entrances included - survives one sweep pass exactly
when the incoming feed references it (through a stop time, a transfer
endpoint, a live stop's parent pointer or a pathway endpoint); no stop
kind is exempt from removal by orphaning. -/
theorem claim_C8_stop_sweep :
    (∀ (f : Feed) (s : Stop), s ∈ (removeStopOrphans f).stops ↔
        s ∈ f.stops ∧ stopReferenced f s.id = true)
    ∧ (∀ f : Feed, (orphanRun f).stops =
        (removeStopOrphans (removeStopOrphans (removeTripOrphans f))).stops) := by
  constructor
  · intro f s
    unfold removeStopOrphans
    simp [List.mem_filter]
  · intro f
    rfl

/-- C9: the orphan sweep is not idempotent, contradicting both the spec's
idempotence property and the processor's own documentation ("removes
entities that aren't referenced anywhere").  On `feedC9` (a depth-2 parent
chain whose leaf nothing references) one run leaves station A in the feed
although nothing references it any more, and a second run deletes it. -/
theorem claim_C9_not_idempotent :
    (orphanRun feedC9).stops = [{ id := "A", location_type := 1, parent_station := none }]
    ∧ stopReferenced (orphanRun feedC9) "A" = false
    ∧ (orphanRun (orphanRun feedC9)).stops = [] :=
  ⟨by decide, by decide, by decide⟩

theorem shortestRefF_fold_spec (l : List Route) :
    ∀ acc : Route,
      (l.foldl shortestRefF acc = acc ∨ l.foldl shortestRefF acc ∈ l)
      ∧ (l.foldl shortestRefF acc).id.length ≤ acc.id.length
      ∧ ∀ r ∈ l, (l.foldl shortestRefF acc).id.length ≤ r.id.length := by
  induction l with
  | nil =>
    intro acc
    exact ⟨Or.inl rfl, le_refl _, by simp⟩
  | cons r l ih =>
    intro acc
    simp only [List.foldl_cons]
    by_cases h : r.id.length < acc.id.length
    · have hs : shortestRefF acc r = r := by simp [shortestRefF, h]
      rw [hs]
      obtain ⟨hmem, hle, hall⟩ := ih r
      refine ⟨?_, by omega, ?_⟩
      · rcases hmem with h1 | h1
        · exact Or.inr (by rw [h1]; exact List.mem_cons_self r l)
        · exact Or.inr (List.mem_cons_of_mem r h1)
      · intro x hx
        rcases List.mem_cons.mp hx with rfl | hx
        · exact hle
        · exact hall x hx
    · have hs : shortestRefF acc r = acc := by simp [shortestRefF, h]
      rw [hs]
      obtain ⟨hmem, hle, hall⟩ := ih acc
      refine ⟨?_, hle, ?_⟩
      · rcases hmem with h1 | h1
        · exact Or.inl h1
        · exact Or.inr (List.mem_cons_of_mem r h1)
      · intro x hx
        rcases List.mem_cons.mp hx with rfl | hx
        · omega
        · exact hall x hx

theorem elimB_refId (l : List Route) (refId : String) : elimB l refId refId = false := by
  unfold elimB
  rw [List.any_eq_false]
  intro r _
  by_cases h : r.id == refId
  · simp [h]
  · simp [h]

theorem elimB_cons_skip (r : Route) (l : List Route) (refId x : String)
    (hr : (r.id == refId) = true) : elimB (r :: l) refId x = elimB l refId x := by
  unfold elimB
  simp [hr]

theorem combine_trips (ref : Route) :
    ∀ (routes : List Route) (fd : Feed),
      (routes.foldl (combineRoutesStep ref) fd).trips =
        fd.trips.map fun t =>
          if elimB routes ref.id t.route then { t with route := ref.id } else t := by
  intro routes
  induction routes with
  | nil =>
    intro fd
    simp [elimB]
  | cons r l ih =>
    intro fd
    simp only [List.foldl_cons]
    rw [ih]
    by_cases hr : (r.id == ref.id) = true
    · have hstep : combineRoutesStep ref fd r = fd := by
        unfold combineRoutesStep
        rw [if_pos hr]
      rw [hstep]
      apply List.map_congr_left
      intro t _
      rw [elimB_cons_skip r l ref.id t.route hr]
    · rw [Bool.not_eq_true] at hr
      have hstep : (combineRoutesStep ref fd r).trips =
          fd.trips.map fun t => if t.route == r.id then { t with route := ref.id } else t := by
        unfold combineRoutesStep
        rw [if_neg (by simp [hr])]
      rw [hstep, List.map_map]
      apply List.map_congr_left
      intro t _
      simp only [Function.comp]
      by_cases ht : (t.route == r.id) = true
      · have ht' : t.route = r.id := by simpa [beq_iff_eq] using ht
        rw [if_pos ht]
        have h1 : elimB l ref.id ({ t with route := ref.id } : Trip).route = false := by
          exact elimB_refId l ref.id
        rw [h1]
        have h2 : elimB (r :: l) ref.id t.route = true := by
          unfold elimB
          rw [List.any_cons]
          have hhead : (!(r.id == ref.id) && (r.id == t.route)) = true := by
            simp [hr, ht']
          rw [hhead]
          simp
        rw [h2]
        simp
      · rw [if_neg ht]
        have h2 : elimB (r :: l) ref.id t.route = elimB l ref.id t.route := by
          unfold elimB
          rw [List.any_cons]
          have : (r.id == t.route) = false := by
            rw [Bool.not_eq_true] at ht
            simp only [beq_eq_false_iff_ne] at ht ⊢
            exact fun h => ht h.symm
          simp [this]
        rw [h2]

theorem combine_routes_table (ref : Route) :
    ∀ (routes : List Route) (fd : Feed),
      (routes.foldl (combineRoutesStep ref) fd).routes =
        fd.routes.filter fun r2 => !(elimB routes ref.id r2.id) := by
  intro routes
  induction routes with
  | nil =>
    intro fd
    simp [elimB]
  | cons r l ih =>
    intro fd
    simp only [List.foldl_cons]
    rw [ih]
    by_cases hr : (r.id == ref.id) = true
    · have hstep : combineRoutesStep ref fd r = fd := by
        unfold combineRoutesStep
        rw [if_pos hr]
      rw [hstep]
      apply List.filter_congr
      intro r2 _
      rw [elimB_cons_skip r l ref.id r2.id hr]
    · rw [Bool.not_eq_true] at hr
      have hstep : (combineRoutesStep ref fd r).routes =
          fd.routes.filter fun r2 => !(r2.id == r.id) := by
        unfold combineRoutesStep
        rw [if_neg (by simp [hr])]
      rw [hstep, List.filter_filter]
      apply List.filter_congr
      intro r2 _
      have hcomm : (r.id == r2.id) = (r2.id == r.id) := by
        by_cases h : r.id = r2.id
        · simp [h]
        · have h2 : ¬ r2.id = r.id := fun hh => h hh.symm
          simp [h, h2]
      unfold elimB
      rw [List.any_cons]
      rw [hr]
      simp only [Bool.not_false, Bool.true_and, Bool.not_or, hcomm]
      exact Bool.and_comm _ _

theorem combineFareStep_eq_filterMap (rid : String) :
    ∀ fas : List FareAttribute, combineFareStep rid fas = fas.filterMap (fareG rid) := by
  intro fas
  induction fas with
  | nil => rfl
  | cons fa l ih =>
    show (if ((fa.rules.filter fun fr => !(fr.route == some rid)).isEmpty && !fa.rules.isEmpty)
        then combineFareStep rid l
        else { fa with rules := fa.rules.filter fun fr => !(fr.route == some rid) } ::
          combineFareStep rid l) = _
    rw [List.filterMap_cons]
    by_cases hc : ((fa.rules.filter fun fr => !(fr.route == some rid)).isEmpty
        && !fa.rules.isEmpty) = true
    · rw [if_pos hc, ih]
      have hg : fareG rid fa = none := by
        unfold fareG
        rw [if_pos hc]
      rw [hg]
    · rw [if_neg hc, ih]
      have hg : fareG rid fa =
          some { fa with rules := fa.rules.filter fun fr => !(fr.route == some rid) } := by
        unfold fareG
        rw [if_neg hc]
      rw [hg]

theorem combine_fares (ref : Route) :
    ∀ (routes : List Route) (fd : Feed),
      (routes.foldl (combineRoutesStep ref) fd).fareAttributes =
        fd.fareAttributes.filterMap (fareGAll routes ref.id) := by
  intro routes
  induction routes with
  | nil =>
    intro fd
    have h : ∀ fa ∈ fd.fareAttributes, fareGAll ([] : List Route) ref.id fa = some fa := by
      intro fa _
      obtain ⟨fid, frules, fag⟩ := fa
      simp only [fareGAll]
      have h1 : (frules.filter fun fr =>
          !(([] : List Route).any fun r => !(r.id == ref.id) && fr.route == some r.id))
          = frules := by
        apply List.filter_eq_self.mpr
        intro fr _
        simp
      rw [h1]
      cases he : frules.isEmpty with
      | true => simp
      | false => simp [he]
    rw [List.filterMap_congr h]
    simp
  | cons r l ih =>
    intro fd
    simp only [List.foldl_cons]
    rw [ih]
    by_cases hr : (r.id == ref.id) = true
    · have hstep : combineRoutesStep ref fd r = fd := by
        unfold combineRoutesStep
        rw [if_pos hr]
      rw [hstep]
      apply List.filterMap_congr
      intro fa _
      simp only [fareGAll]
      have h1 : ∀ fr : FareRule,
          ((r :: l).any fun r2 => !(r2.id == ref.id) && fr.route == some r2.id)
            = (l.any fun r2 => !(r2.id == ref.id) && fr.route == some r2.id) := by
        intro fr
        rw [List.any_cons, hr]
        simp
      simp only [h1]
    · rw [Bool.not_eq_true] at hr
      have hstep : (combineRoutesStep ref fd r).fareAttributes =
          combineFareStep r.id fd.fareAttributes := by
        unfold combineRoutesStep
        rw [if_neg (by simp [hr])]
      rw [hstep, combineFareStep_eq_filterMap, List.filterMap_filterMap]
      apply List.filterMap_congr
      intro fa _
      obtain ⟨fid, frules, fag⟩ := fa
      have hpt : ∀ fr : FareRule,
          (!((r :: l).any fun r2 => !(r2.id == ref.id) && fr.route == some r2.id))
            = ((!(fr.route == some r.id))
                && !(l.any fun r2 => !(r2.id == ref.id) && fr.route == some r2.id)) := by
        intro fr
        rw [List.any_cons, hr]
        simp [Bool.not_or]
      have hff : ((frules.filter fun fr => !(fr.route == some r.id)).filter fun fr =>
            !(l.any fun r2 => !(r2.id == ref.id) && fr.route == some r2.id))
          = frules.filter fun fr =>
            !((r :: l).any fun r2 => !(r2.id == ref.id) && fr.route == some r2.id) := by
        rw [List.filter_filter]
        apply List.filter_congr
        intro fr _
        rw [hpt fr]
        exact Bool.and_comm _ _
      cases hrules : frules with
      | nil =>
        simp [fareG, fareGAll, hrules]
      | cons fr0 frs =>
        rw [← hrules]
        have hempty : frules.isEmpty = false := by rw [hrules]; rfl
        by_cases h1e : (frules.filter fun fr => !(fr.route == some r.id)).isEmpty = true
        · have hg : fareG r.id ⟨fid, frules, fag⟩ = none := by
            simp only [fareG]
            rw [if_pos (by simp [h1e, hempty])]
          rw [hg]
          have hnil1 : (frules.filter fun fr => !(fr.route == some r.id)) = [] := by
            cases h : (frules.filter fun fr => !(fr.route == some r.id)) with
            | nil => rfl
            | cons x xs => rw [h] at h1e; exact absurd h1e (by simp)
          have hnil : (frules.filter fun fr =>
              !((r :: l).any fun r2 => !(r2.id == ref.id) && fr.route == some r2.id)) = [] := by
            rw [List.filter_eq_nil_iff]
            intro fr hfr
            have hx : (fr.route == some r.id) = true := by
              have h0 := (List.filter_eq_nil_iff.mp hnil1) fr hfr
              cases hb : (fr.route == some r.id) with
              | false => rw [hb] at h0; exact absurd rfl h0
              | true => rfl
            rw [hpt fr, hx]
            simp
          show none = fareGAll (r :: l) ref.id ⟨fid, frules, fag⟩
          simp only [fareGAll]
          rw [if_pos (by rw [hnil, hempty]; rfl)]
        · have h1f : (frules.filter fun fr => !(fr.route == some r.id)).isEmpty = false := by
            cases h : (frules.filter fun fr => !(fr.route == some r.id)).isEmpty with
            | true => exact absurd h h1e
            | false => rfl
          have hg : fareG r.id ⟨fid, frules, fag⟩ =
              some ⟨fid, frules.filter fun fr => !(fr.route == some r.id), fag⟩ := by
            simp only [fareG]
            rw [if_neg (by simp [h1f])]
          rw [hg]
          show fareGAll l ref.id ⟨fid, frules.filter fun fr => !(fr.route == some r.id), fag⟩
            = fareGAll (r :: l) ref.id ⟨fid, frules, fag⟩
          simp only [fareGAll]
          rw [hff, hempty, h1f]

/-- Counterexample to C5 as stated: in a class of two equal routes with ids
`a:b:c` (two colons, longer) and `xy` (no colons, shorter), `combineRoutes`
keeps `xy` - the selection is by shortest id only and ignores colons, so
the route with the most colons in its ID does not survive. -/
theorem claim_C5_counterexample :
    numColons routeABC.id = 2
    ∧ numColons routeXY.id = 0
    ∧ (combineRoutes feedC5 [routeABC, routeXY]).routes.map (fun r => r.id) = ["xy"]
    ∧ (combineRoutes feedC5 [routeABC, routeXY]).trips.map (fun t => t.route) = ["xy"] :=
  ⟨by decide, by decide, by decide, by decide⟩

/-- C5 (amended).  When the route duplicate remover merges an equivalence
class, the surviving reference route is one of lowest id length (the first
encountered, by the strict-less fold; no colon count and no lexicographic
tie-break is involved).  All trips of the eliminated routes are retargeted
to the reference; fare rules referencing an eliminated route are deleted
rather than retargeted, and a fare attribute whose rule list becomes empty
this way - having been non-empty - is deleted. -/
theorem claim_C5_combine_routes :
    (∀ (routes : List Route) (r0 : Route),
        (combineRoutesRef routes r0 = r0 ∨ combineRoutesRef routes r0 ∈ routes)
        ∧ (combineRoutesRef routes r0).id.length ≤ r0.id.length
        ∧ ∀ r ∈ routes, (combineRoutesRef routes r0).id.length ≤ r.id.length)
    ∧ (∀ (fd : Feed) (r0 : Route) (rest : List Route),
        (combineRoutes fd (r0 :: rest)).trips = (fd.trips.map fun t =>
            if elimB (r0 :: rest) (combineRoutesRef (r0 :: rest) r0).id t.route
            then { t with route := (combineRoutesRef (r0 :: rest) r0).id } else t)
        ∧ (combineRoutes fd (r0 :: rest)).routes = (fd.routes.filter fun r2 =>
            !(elimB (r0 :: rest) (combineRoutesRef (r0 :: rest) r0).id r2.id))
        ∧ (combineRoutes fd (r0 :: rest)).fareAttributes =
            fd.fareAttributes.filterMap
              (fareGAll (r0 :: rest) (combineRoutesRef (r0 :: rest) r0).id)) := by
  constructor
  · intro routes r0
    exact shortestRefF_fold_spec routes r0
  · intro fd r0 rest
    refine ⟨?_, ?_, ?_⟩
    · exact combine_trips (combineRoutesRef (r0 :: rest) r0) (r0 :: rest) fd
    · exact combine_routes_table (combineRoutesRef (r0 :: rest) r0) (r0 :: rest) fd
    · exact combine_fares (combineRoutesRef (r0 :: rest) r0) (r0 :: rest) fd

theorem list_all_congr {a : Type} (l : List a) (f g : a → Bool)
    (h : ∀ x ∈ l, f x = g x) : l.all f = l.all g := by
  induction l with
  | nil => rfl
  | cons x xs ih =>
    simp only [List.all_cons]
    rw [h x (List.mem_cons_self x xs), ih fun y hy => h y (List.mem_cons_of_mem x hy)]

/-- Counterexample to C6 as stated: two single-stop-time trips whose
departures agree but whose arrivals differ are declared stop-time equal by
the code (the position-0 departure check fires and skips the arrival
comparison), although the position is also the last one, where the claim
requires the arrival times to agree. -/
theorem claim_C6_counterexample :
    tripStEq tripTA tripTB = true
    ∧ tripTA.stopTimes.length = 1
    ∧ (tripTA.stopTimes.getD 0 stDummy).arrival_time
        ≠ (tripTB.stopTimes.getD 0 stDummy).arrival_time :=
  ⟨by decide, by decide, by decide⟩

/-- C6 (amended).  The stop-time equality holds between two trips exactly
when they have the same number of stop times, the stops resolve to the
same parent station at every position, arrival and departure both agree at
every interior position, and - for trips with at least two stop times -
the departures agree at the first and the arrivals at the last position;
for single-stop-time trips it suffices that the departure or the arrival
agrees. -/
theorem claim_C6_trip_stop_time_equality :
    ∀ a b : TripT, tripStEq a b = tripStEqAmended a b := by
  intro a b
  unfold tripStEq tripStEqAmended
  by_cases hlen : a.stopTimes.length = b.stopTimes.length
  · have h1 : (a.stopTimes.length != b.stopTimes.length) = false := by
      simp [hlen]
    have h2 : (a.stopTimes.length == b.stopTimes.length) = true := by
      simp [hlen]
    rw [h1, h2]
    simp only [Bool.false_eq_true, if_false, Bool.true_and]
    apply list_all_congr
    intro i hi
    rw [List.mem_range] at hi
    by_cases hn1 : a.stopTimes.length = 1
    · have hi0 : i = 0 := by omega
      subst hi0
      simp only [hn1]
      cases hdep : ((a.stopTimes.getD 0 stDummy).departure_time
          == (b.stopTimes.getD 0 stDummy).departure_time) with
      | true =>
        cases harr : ((a.stopTimes.getD 0 stDummy).arrival_time
            == (b.stopTimes.getD 0 stDummy).arrival_time) with
        | true => simp [hdep, harr]
        | false => simp [hdep, harr]
      | false =>
        cases harr : ((a.stopTimes.getD 0 stDummy).arrival_time
            == (b.stopTimes.getD 0 stDummy).arrival_time) with
        | true => simp [hdep, harr]
        | false => simp [hdep, harr]
    · have hne1 : (a.stopTimes.length == 1) = false := by
        simp [hn1]
      by_cases hi0 : i = 0
      · subst hi0
        have hlast : (0 == a.stopTimes.length - 1) = false := by
          have : a.stopTimes.length - 1 ≠ 0 := by omega
          simp [this.symm]
        simp only [hne1, hlast]
        cases hdep : ((a.stopTimes.getD 0 stDummy).departure_time
            == (b.stopTimes.getD 0 stDummy).departure_time) with
        | true =>
          cases harr : ((a.stopTimes.getD 0 stDummy).arrival_time
              == (b.stopTimes.getD 0 stDummy).arrival_time) with
          | true => simp [hdep, harr]
          | false => simp [hdep, harr]
        | false =>
          cases harr : ((a.stopTimes.getD 0 stDummy).arrival_time
              == (b.stopTimes.getD 0 stDummy).arrival_time) with
          | true => simp [hdep, harr]
          | false => simp [hdep, harr]
      · have hz : (i == 0) = false := by
          simp [hi0]
        by_cases hil : i = a.stopTimes.length - 1
        · have hl : (i == a.stopTimes.length - 1) = true := by
            simp [hil]
          simp only [hne1, hz, hl]
          cases hdep : ((a.stopTimes.getD i stDummy).departure_time
              == (b.stopTimes.getD i stDummy).departure_time) with
          | true =>
            cases harr : ((a.stopTimes.getD i stDummy).arrival_time
                == (b.stopTimes.getD i stDummy).arrival_time) with
            | true => simp [hdep, harr]
            | false => simp [hdep, harr]
          | false =>
            cases harr : ((a.stopTimes.getD i stDummy).arrival_time
                == (b.stopTimes.getD i stDummy).arrival_time) with
            | true => simp [hdep, harr]
            | false => simp [hdep, harr]
        · have hl : (i == a.stopTimes.length - 1) = false := by
            simp [hil]
          simp only [hne1, hz, hl]
          simp
  · have h1 : (a.stopTimes.length != b.stopTimes.length) = true := by
      simp [hlen]
    have h2 : (a.stopTimes.length == b.stopTimes.length) = false := by
      simp [hlen]
    rw [h1, h2]
    simp

/-- Counterexample to C4 as stated: under the configuration `main`
constructs for strict (non-fuzzy) mode, two attribute-identical
location_type-0 stops at distance 3 m are declared equal, although the
claim allows at most 2 m for stops in strict mode. -/
theorem claim_C4_counterexample :
    stopEquals (mainStopDedupeCfg false) [] 3 stopC4A stopC4B = true
    ∧ ¬((3 : ℚ) ≤ 2) :=
  ⟨by decide, by decide⟩

/-- C4 (amended).  With the thresholds `main` passes (5 m stops / 50 m
stations in both modes), stopEquals coincides with the amended spec
predicate: strict mode compares every additional field and every
non-positional attribute exactly and requires distance at most 5 m (50 m
for stations); fuzzy mode relaxes code and name when the distance is at
most 2.5 m and both stops share the same non-null parent (code also when
either code is empty), relaxes platform code under the same condition
plus one empty platform code, and relaxes url and level whenever either
side is null, with the same 5 m / 50 m distance gate. -/
theorem claim_C4_stop_equals :
    ∀ (fuzzy : Bool) (addFlds : List (String → String)) (dist : ℚ)
      (a b : StopC4),
    stopEquals (mainStopDedupeCfg fuzzy) addFlds dist a b = true
      ↔ stopEqualsAmended fuzzy addFlds dist a b := by
  intro fuzzy addFlds dist a b
  cases fuzzy with
  | false =>
    simp only [stopEquals, stopEqualsAmended, mainStopDedupeCfg]
    simp [Bool.and_eq_true, Bool.or_eq_true, decide_eq_true_eq,
      List.all_eq_true, and_assoc]
  | true =>
    simp only [stopEquals, stopEqualsAmended, mainStopDedupeCfg]
    simp [Bool.and_eq_true, Bool.or_eq_true, decide_eq_true_eq,
      Option.isNone_iff_eq_none, Option.isSome_iff_ne_none, and_assoc,
      or_assoc]

theorem remeasureKnownN_none (distP : ℚ × ℚ → ℚ × ℚ → ℚ) (fuel : Nat) :
    ∀ (i : Nat) (st : RKState),
    (∀ j, (st.pts.getD j ptDummy).dist_traveled = none) →
    (remeasureKnownN distP fuel i st).pts = st.pts
    ∧ (remeasureKnownN distP fuel i st).c = st.c
    ∧ (remeasureKnownN distP fuel i st).cc = st.cc := by
  induction fuel with
  | zero => intro i st h; exact ⟨rfl, rfl, rfl⟩
  | succ n ih =>
    intro i st h
    rw [remeasureKnownN]
    by_cases hi : i < st.pts.length
    · rw [if_pos hi]
      have hstep : (rkStep distP i st).pts = st.pts
          ∧ (rkStep distP i st).c = st.c
          ∧ (rkStep distP i st).cc = st.cc := by
        simp only [rkStep, h i]
        exact ⟨trivial, trivial, trivial⟩
      have h2 : ∀ j,
          ((rkStep distP i st).pts.getD j ptDummy).dist_traveled
            = none := by
        intro j; rw [hstep.1]; exact h j
      have hr := ih (i + 1) (rkStep distP i st) h2
      exact ⟨hr.1.trans hstep.1, hr.2.1.trans hstep.2.1,
        hr.2.2.trans hstep.2.2⟩
    · rw [if_neg hi]; exact ⟨rfl, rfl, rfl⟩

/-- Counterexample to C7 as stated: a shape with no measurement on any
point, processed WITHOUT --force, still gets all measurements filled as
cumulative ground distance in meters (here point spacing 7), although the
claim says such a shape is left without measurements when --force is not
set. -/
theorem claim_C7_counterexample :
    ptC7x.dist_traveled = none ∧ ptC7y.dist_traveled = none
    ∧ remeasure false (fun _ _ => 7) [ptC7x, ptC7y]
        = [{ ptC7x with dist_traveled := some 0 },
           { ptC7y with dist_traveled := some 7 }] :=
  ⟨by decide, by decide, by
    norm_num [remeasure, remeasureKnownRun, remeasureKnownN, rkStep,
      rkAvg, remeasureUnknown, remeasureUnknownN, remeasureBetween,
      remeasureBetweenN, ptC7x, ptC7y, ptDummy, coordC7]⟩

/-- C7 (amended).  If a shape has no shape_dist_traveled measurement on
any point, the remeasurer fills all measurements assuming a meter unit
(remeasureUnknown with unit 1, cumulative ground distance from the start)
REGARDLESS of the --force option: the statement holds for every value of
`force`, so in particular the outcome with and without --force is the
same.  Force only matters for shapes that have some measurements whose
average unit comes out as 0. -/
theorem claim_C7_remeasure :
    ∀ (force : Bool) (distP : ℚ × ℚ → ℚ × ℚ → ℚ) (pts : List PointC7),
    (∀ p ∈ pts, p.dist_traveled = none) →
    remeasure force distP pts = remeasureUnknown distP 1 pts := by
  intro force distP pts h
  have hd : ∀ j, ((pts.getD j ptDummy).dist_traveled) = none := by
    intro j
    by_cases hj : j < pts.length
    · refine h _ ?_
      rw [List.getD_eq_getElem pts ptDummy hj]
      exact List.getElem_mem hj
    · rw [List.getD_eq_default pts ptDummy (Nat.le_of_not_lt hj)]; rfl
  have hk := remeasureKnownN_none distP pts.length 0
    { pts := pts, c := 0, cc := 0, m := 0, lastMIndex := -1, lastM := -1
      hasLast := false, d := 0 } hd
  have hcc : (remeasureKnownRun distP pts).cc = 0 := hk.2.2
  have hpts : (remeasureKnownRun distP pts).pts = pts := hk.1
  simp only [remeasure]
  rw [if_pos hcc, hpts]

theorem claim_C7_remeasure_witness :
    (∀ p ∈ [ptC7x, ptC7y], p.dist_traveled = none)
    ∧ remeasure false (fun _ _ => 7) [ptC7x, ptC7y]
        = remeasureUnknown (fun _ _ => 7) 1 [ptC7x, ptC7y] :=
  ⟨by decide,
    claim_C7_remeasure false (fun _ _ => 7) [ptC7x, ptC7y] (by decide)⟩

theorem length_filter_add_length_filter_not {a : Type} (l : List a)
    (p : a → Bool) :
    (l.filter p).length + (l.filter (fun x => !(p x))).length
      = l.length := by
  induction l with
  | nil => rfl
  | cons x xs ih =>
    cases hx : p x with
    | true =>
      simp only [List.filter_cons, hx, Bool.not_true, List.length_cons,
        Bool.false_eq_true, if_pos, if_false]
      omega
    | false =>
      simp only [List.filter_cons, hx, Bool.not_false, List.length_cons,
        Bool.false_eq_true, if_pos, if_false]
      omega

/-- C10.  For every class of time-independent-equivalent trips, the
frequency minimizer rewrites the class into frequency-based template
trips only when the number of packs is strictly smaller than the number
of covered trips - otherwise the trip collection is untouched - and the
number of trips never increases; when a rewrite with at least one pack
happens the trip count changes by exactly packed - covered. -/
theorem claim_C10_frequency_minimizer
    (tripIds covered newIds : List String) (t : String) (packed : Nat)
    (hIds : tripIds.Nodup) (hcov : covered.Nodup)
    (hsub : ∀ c ∈ covered, c ∈ tripIds) (ht : t ∈ covered)
    (hnew : newIds.length = packed - 1) (_hnn : newIds.Nodup)
    (_hfresh : ∀ i ∈ newIds, i ∉ tripIds) :
    (covered.length ≤ packed →
      processClass tripIds t covered packed newIds = tripIds)
    ∧ (processClass tripIds t covered packed newIds).length
        ≤ tripIds.length
    ∧ (1 ≤ packed → packed < covered.length →
        (processClass tripIds t covered packed newIds).length
          + covered.length = tripIds.length + packed) := by
  have hcpos : 1 ≤ covered.length := List.length_pos.mpr
    (List.ne_nil_of_mem ht)
  by_cases hg : covered.length ≤ packed
  · refine ⟨fun _ => ?_, ?_, ?_⟩
    · simp [processClass, hg]
    · simp [processClass, hg]
    · intro _ hlt; omega
  · have hperm :
        (tripIds.filter
            (fun i => !(i == t || !(covered.contains i)))).Perm
          (covered.erase t) := by
      refine (List.perm_ext_iff_of_nodup
        (hIds.filter _) (hcov.erase t)).mpr ?_
      intro x
      rw [List.mem_filter, hcov.mem_erase_iff]
      simp only [Bool.not_or, Bool.and_eq_true, Bool.not_eq_true',
        beq_eq_false_iff_ne, Bool.not_not]
      constructor
      · rintro ⟨_, hne, hmem⟩; exact ⟨hne, by simpa using hmem⟩
      · rintro ⟨hne, hmem⟩
        exact ⟨hsub x hmem, hne, by simpa using hmem⟩
    have hlen2 :
        (tripIds.filter
            (fun i => !(i == t || !(covered.contains i)))).length
          = covered.length - 1 := by
      rw [hperm.length_eq, List.length_erase_of_mem ht]
    have hsplit := length_filter_add_length_filter_not tripIds
      (fun i => i == t || !(covered.contains i))
    have hres :
        (processClass tripIds t covered packed newIds).length
          = (tripIds.filter
              (fun i => i == t || !(covered.contains i))).length
            + newIds.length := by
      simp [processClass, hg]
    refine ⟨fun hg2 => absurd hg2 hg, ?_, fun hp1 hlt => ?_⟩
    · omega
    · omega

theorem claim_C10_frequency_minimizer_witness :
    (processClass ["a", "b", "c", "x"] "a" ["a", "b", "c"] 2 ["a_2"]).length
      ≤ (["a", "b", "c", "x"] : List String).length :=
  (claim_C10_frequency_minimizer ["a", "b", "c", "x"] ["a", "b", "c"]
    ["a_2"] "a" 2 (by decide) (by decide) (by decide) (by decide)
    (by decide) (by decide) (by decide)).2.1
